import Mathlib

/-!
Verification development for the wimlib core: the NTFS volume scanner
(ntfs-3g_capture.c) and the metadata resource codec (metadata_resource.c).
C code is shallowly embedded: machine integers become Nat (with explicit
masks where overflow matters), byte buffers become List Nat, fallible code
returns Except, and the stateful capture walk threads an explicit state
record.  External collaborators (the libntfs-3g platform library, SHA-1)
are abstracted as data or function parameters, as the spec declares them
out of scope.
-/

namespace Wimlib

/-- Error kinds of the embedded code (wimlib error codes; concrete numeric
values are irrelevant to the claims). -/
inductive WimErr where
  | invalidMetadataResource
  | invalidReparseData
  | nomem
  | ntfs3g
  | unsupportedFile
  | other
deriving DecidableEq, Repr

/-- Round up to the next multiple of 8; embeds the C idiom (x + 7) & ~7. -/
def align8 (n : Nat) : Nat := (n + 7) / 8 * 8

/-- Read a little-endian integer of `k` bytes from a byte buffer at `off`
(missing bytes read as 0; the callers bounds-check first, mirroring the C). -/
def leNat (buf : List Nat) (off : Nat) : Nat → Nat
  | 0 => 0
  | k + 1 => buf.getD off 0 % 256 + 256 * leNat buf (off + 1) k

/-- Little-endian encoding of `n` in `k` bytes (truncating, as a C store does). -/
def leBytes (n : Nat) : Nat → List Nat
  | 0 => []
  | k + 1 => n % 256 :: leBytes (n / 256) k

/-! ## Blob location comparison (C2 of the spec; cmp_ntfs_locations) -/

/-- Description of where data is located in an NTFS volume
(struct ntfs_location in ntfs-3g_capture.c).  The volume handle itself is
identified by reference only; `attr_name` holds UTF-16LE code units. -/
structure NtfsLocation where
  mft_no : Nat
  attr_name : List Nat
  sort_key : Nat
deriving DecidableEq, Repr

/-- Three-way u64 comparison used by the capture code (cmp_u64). -/
def cmp_u64 (a b : Nat) : Int :=
  if a < b then -1 else if a > b then 1 else 0

/-- cmp_ntfs_locations from ntfs-3g_capture.c: compare by sort_key only. -/
def cmp_ntfs_locations (loc1 loc2 : NtfsLocation) : Int :=
  cmp_u64 loc1.sort_key loc2.sort_key

/-! ## Reading an attribute prefix (read_ntfs_attribute_prefix) -/

/-- Chunk size of the stack buffer in read_ntfs_attribute_prefix
(BUFFER_SIZE in wimlib). -/
def BUFFER_SIZE : Nat := 32768

/-- Offset of the reparse data past the 8-byte reparse header
(REPARSE_DATA_OFFSET). -/
def REPARSE_DATA_OFFSET : Nat := 8

/-- Error code returned for NTFS library failures inside the read loop
(WIMLIB_ERR_NTFS_3G as an Int return value, value abstract but nonzero). -/
def ERR_NTFS_3G_CODE : Int := 35

/-- The while loop of read_ntfs_attribute_prefix.  `data` is the byte
content of the referenced attribute as exposed by ntfs_attr_pread; a pread
of `toRead` bytes at `pos` returns fewer bytes exactly when the attribute
ends early, which the C code treats as an error.  The sink is
call_consume_chunk; a nonzero return exits the loop immediately.  Returns the
final return code together with the chunks delivered to the sink. -/
def read_attr_chunks (data : List Nat) (sink : List Nat → Int) :
    Nat → Nat → Int × List (List Nat)
  | _, 0 => (0, [])
  | pos, Nat.succ rem' =>
    let rem := Nat.succ rem'
    let toRead := min rem BUFFER_SIZE
    let chunk := (data.drop pos).take toRead
    if chunk.length ≠ toRead then (ERR_NTFS_3G_CODE, [])
    else if sink chunk ≠ 0 then (sink chunk, [chunk])
    else
      let r := read_attr_chunks data sink (pos + toRead) (rem - toRead)
      (r.1, chunk :: r.2)
termination_by _ rem => rem
decreasing_by
  simp only [BUFFER_SIZE]
  omega

/-- read_ntfs_attribute_prefix from ntfs-3g_capture.c (renamed with a
trailing marker for this development): deliver the first `size` bytes of the
attribute in BUFFER_SIZE chunks, starting at REPARSE_DATA_OFFSET for a
reparse-point attribute and at 0 otherwise.  The inode/attribute open steps
are abstracted: `data` is the open attribute. -/
def read_ntfs_attribute_prefix_c (isReparse : Bool) (data : List Nat)
    (size : Nat) (sink : List Nat → Int) : Int × List (List Nat) :=
  read_attr_chunks data sink (if isReparse then REPARSE_DATA_OFFSET else 0) size

/-! ## NTFS volume model (the libntfs-3g interface, abstracted as data) -/

/-- Windows file attribute flags used by the scanner. -/
def FILE_ATTRIBUTE_DIRECTORY : Nat := 0x10
def FILE_ATTRIBUTE_REPARSE_POINT : Nat := 0x400
def FILE_ATTRIBUTE_ENCRYPTED : Nat := 0x4000

/-- ntfs-3g filename namespace constants (FILE_NAME_POSIX = 0,
FILE_NAME_WIN32 = 1, FILE_NAME_DOS = 2, Win32+DOS = 3). -/
def FILE_NAME_WIN32 : Nat := 1
def FILE_NAME_DOS : Nat := 2

/-- wimlib add-flags bits consulted by the NTFS scanner. -/
def WIMLIB_ADD_FLAG_NO_ACLS : Nat := 0x20
def WIMLIB_ADD_FLAG_RPFIX : Nat := 0x100
def WIMLIB_ADD_FLAG_NO_UNSUPPORTED_EXCLUDE : Nat := 0x400

/-- The hole sentinel of libntfs-3g runlists (LCN_HOLE = -2). -/
def LCN_HOLE : Int := -2

/-- Reparse-point flag cleared by the RPFIX step (WIM_RP_FLAG_NOT_FIXED). -/
def WIM_RP_FLAG_NOT_FIXED : Nat := 1

/-- An NTFS attribute record as the scanner consumes it: name (UTF-16LE code
units, empty for the unnamed stream), the authoritative value length
(ntfs_get_attribute_value_length), the readable byte content
(ntfs_attr_pread), and the LCN of the first runlist entry
(ntfs_attr_find_vcn at VCN 0; none when there is no mapped run). -/
structure NAttr where
  name : List Nat
  dataSize : Nat
  content : List Nat
  firstLcn : Option Int
deriving DecidableEq, Repr

/-- One directory entry delivered by ntfs_readdir. -/
structure NDirent where
  name : List Nat
  nameType : Nat
  mref : Nat
deriving DecidableEq, Repr

/-- One NTFS inode of the mounted volume, as observed through the platform
library: attribute flags and timestamps, the attribute lists of the two
types the scanner enumerates, the raw security descriptor returned by
ntfs_get_ntfs_acl (with a failure flag for a library error), and the
readdir entries when the inode is a directory. -/
structure NInode where
  attributes : Nat
  creation_time : Nat
  last_write_time : Nat
  last_access_time : Nat
  reparseAttrs : List NAttr
  dataAttrs : List NAttr
  sdBytes : List Nat
  sdFail : Bool
  children : List NDirent
deriving DecidableEq, Repr

/-- A read-only mounted NTFS volume: the map from MFT number to inode
(ntfs_inode_open fails on numbers not present). -/
structure NVolume where
  inodes : List (Nat × NInode)
deriving Repr

def nvol_lookup (vol : NVolume) (mref : Nat) : Option NInode :=
  (vol.inodes.find? (fun p => p.1 = mref)).map (fun p => p.2)

/-! ## WIM-side data model built by the scanner -/

/-- Stream/attribute type distinguished by the scanner
(attr_type_to_wimlib_stream_type). -/
inductive AttrType where
  | data
  | reparse
deriving DecidableEq, Repr

/-- A blob descriptor with an in-NTFS-volume location (struct
blob_descriptor restricted to BLOB_IN_NTFS_VOLUME). -/
structure Blob where
  size : Nat
  mft_no : Nat
  attr_type : AttrType
  attr_name : List Nat
  sort_key : Nat
deriving DecidableEq, Repr

/-- A stream attached to a WIM inode (struct wim_inode_stream): type, name
(empty for the unnamed data stream), and an optional blob (none for an
empty stream). -/
structure WStream where
  typ : AttrType
  name : List Nat
  blob : Option Blob
deriving DecidableEq, Repr

/-- A WIM inode (struct wim_inode, the fields the scanner touches).
A fresh inode starts with link count 1, the no-SD sentinel -1 and the
NOT_FIXED reparse flag set, per the inode constructor wimlib uses. -/
structure WInode where
  i_ino : Nat
  i_nlink : Nat
  i_attributes : Nat
  i_creation_time : Nat
  i_last_write_time : Nat
  i_last_access_time : Nat
  i_reparse_tag : Nat
  i_rp_flags : Nat
  i_security_id : Int
  i_streams : List WStream
deriving DecidableEq, Repr

def freshWInode (ino_no : Nat) : WInode :=
  { i_ino := ino_no, i_nlink := 1, i_attributes := 0, i_creation_time := 0,
    i_last_write_time := 0, i_last_access_time := 0, i_reparse_tag := 0,
    i_rp_flags := WIM_RP_FLAG_NOT_FIXED, i_security_id := -1, i_streams := [] }

/-- A capture-side dentry.  The shared inode object is referenced by its
volume inode number, the key of the inode table; hard-linked dentries carry
the same key. -/
inductive WDentryC where
  | mk (name : List Nat) (short_name : List Nat) (is_win32_name : Bool)
       (ino : Nat) (children : List WDentryC)

def WDentryC.name : WDentryC → List Nat
  | .mk n _ _ _ _ => n

def WDentryC.short_name : WDentryC → List Nat
  | .mk _ s _ _ _ => s

def WDentryC.is_win32_name : WDentryC → Bool
  | .mk _ _ w _ _ => w

def WDentryC.ino : WDentryC → Nat
  | .mk _ _ _ i _ => i

def WDentryC.children : WDentryC → List WDentryC
  | .mk _ _ _ _ c => c

def WDentryC.withWin32 : WDentryC → Bool → WDentryC
  | .mk n s _ i c, b => .mk n s b i c

def WDentryC.withShortName : WDentryC → List Nat → WDentryC
  | .mk n _ w i c, s => .mk n s w i c

def WDentryC.withChildren : WDentryC → List WDentryC → WDentryC
  | .mk n s w i _, cs => .mk n s w i cs

def WDentryC.childInos (d : WDentryC) : List Nat :=
  d.children.map WDentryC.ino

/-- Progress events reported through do_capture_progress. -/
inductive PEvent where
  | excluded (path : List Nat)
  | unsupported (path : List Nat)
  | ok (path : List Nat) (ino : Nat)
deriving DecidableEq, Repr

/-- The mutable capture state the scanner threads: the inode table (C5,
keyed by volume inode number), the security descriptor set (C4, raw
descriptors in first-seen order; the ID of a descriptor is its index), the
unhashed-blob list tagged with the owning inode number, and the progress
log. -/
structure CState where
  itable : List (Nat × WInode)
  sd_set : List (List Nat)
  unhashed : List (Nat × Blob)
  progress : List PEvent
deriving Repr

/-- Capture parameters: the add-flags word and the external path matcher
try_exclude (negative result: excluded; positive: error; zero: include). -/
structure CaptureParams where
  add_flags : Nat
  tryExclude : List Nat → Int

def tbl_find (tbl : List (Nat × WInode)) (k : Nat) : Option WInode :=
  (tbl.find? (fun p => p.1 = k)).map (fun p => p.2)

def tbl_update (tbl : List (Nat × WInode)) (k : Nat) (f : WInode → WInode) :
    List (Nat × WInode) :=
  tbl.map (fun p => if p.1 = k then (p.1, f p.2) else p)

/-- Basename of a '/'-separated path (path_basename_with_len). -/
def path_basename (p : List Nat) : List Nat :=
  (p.reverse.takeWhile (fun c => c ≠ 47)).reverse

/-- Modelled from the spec: inode_table_new_dentry of C5 (inode_table.c is
not part of the sources).  Returns a dentry bound either to a fresh inode
(link count 1) or to the already-seen inode for this volume inode number,
whose link count is incremented; the caller inspects link_count > 1 to skip
per-inode scanning.  Result: (dentry, updated table, bound inode). -/
def inode_table_new_dentry (tbl : List (Nat × WInode)) (basename : List Nat)
    (ino_no : Nat) : WDentryC × List (Nat × WInode) × WInode :=
  let d : WDentryC := .mk basename [] false ino_no []
  match tbl_find tbl ino_no with
  | some i =>
      let i' := { i with i_nlink := i.i_nlink + 1 }
      (d, tbl_update tbl ino_no (fun j => { j with i_nlink := j.i_nlink + 1 }), i')
  | none => (d, tbl ++ [(ino_no, freshWInode ino_no)], freshWInode ino_no)

/-- Append a stream to an inode (inode_add_stream; allocation failure not
modelled). -/
def inode_add_stream (i : WInode) (typ : AttrType) (name : List Nat)
    (blob : Option Blob) : WInode :=
  { i with i_streams := i.i_streams ++ [{ typ := typ, name := name, blob := blob }] }

/-- The sort key assigned by set_attr_sort_key: the LCN of the first
runlist entry, or 0 when there is no run or the first run is a hole.  The C
stores an s64 LCN into a u64 field, hence the wrap modulo 2^64. -/
def set_attr_sort_key (a : NAttr) : Nat :=
  match a.firstLcn with
  | some lcn => if lcn ≠ LCN_HOLE then (lcn % (2 ^ 64 : Int)).toNat else 0
  | none => 0

/-- read_reparse_tag: read the first 4 bytes of the reparse attribute; a
short read is a library error. -/
def read_reparse_tag (a : NAttr) : Except WimErr Nat :=
  if (a.content.take 4).length ≠ 4 then .error .ntfs3g
  else .ok (leNat a.content 0 4)

/-- scan_ntfs_attr from ntfs-3g_capture.c: save one NTFS attribute to a WIM
inode.  A non-empty attribute gets a blob descriptor whose size is the
attribute value length, minus the 8-byte reparse header for a reparse
point (rejecting sizes below 8); the reparse tag is captured from the first
4 bytes.  The new blob is registered on the unhashed list
(prepare_unhashed_blob).  Empty attributes yield a stream with no blob. -/
def scan_ntfs_attr (ino : WInode) (mft_no : Nat) (typ : AttrType)
    (record : NAttr) (unhashed : List (Nat × Blob)) :
    Except WimErr (WInode × List (Nat × Blob)) :=
  let data_size := record.dataSize
  let stream_name := record.name
  if data_size ≠ 0 then
    let blob : Blob := { size := data_size, mft_no := mft_no, attr_type := typ,
                         attr_name := stream_name,
                         sort_key := set_attr_sort_key record }
    match typ with
    | .reparse =>
        if blob.size < REPARSE_DATA_OFFSET then .error .invalidReparseData
        else
          let blob := { blob with size := blob.size - REPARSE_DATA_OFFSET }
          match read_reparse_tag record with
          | .error e => .error e
          | .ok tag =>
              let ino := { ino with i_reparse_tag := tag }
              let ino := inode_add_stream ino .reparse stream_name (some blob)
              .ok (ino, unhashed ++ [(ino.i_ino, blob)])
    | .data =>
        let ino := inode_add_stream ino .data stream_name (some blob)
        .ok (ino, unhashed ++ [(ino.i_ino, blob)])
  else
    .ok (inode_add_stream ino typ stream_name none, unhashed)

/-- scan_ntfs_attrs_with_type: scan each attribute of the list in
enumeration order. -/
def scan_ntfs_attrs_with_type (ino : WInode) (mft_no : Nat) (typ : AttrType)
    (attrs : List NAttr) (unhashed : List (Nat × Blob)) :
    Except WimErr (WInode × List (Nat × Blob)) :=
  match attrs with
  | [] => .ok (ino, unhashed)
  | a :: rest =>
      match scan_ntfs_attr ino mft_no typ a unhashed with
      | .error e => .error e
      | .ok (i', u') => scan_ntfs_attrs_with_type i' mft_no typ rest u'

/-- ntfs_get_ntfs_acl as the scanner sees it: a negative return is a
library failure, otherwise the needed size is returned and the descriptor
is copied out when it fits in `avail` bytes.  The reported size does not
depend on `avail`. -/
def ntfs_get_ntfs_acl (ni : NInode) (_avail : Nat) : Int :=
  if ni.sdFail then -1 else (ni.sdBytes.length : Int)

/-- Modelled from the spec: sd_set_add_sd of C4 (sd_set.c is not part of
the sources).  Duplicates return the existing ID; a new descriptor is
appended and gets the next ID in first-seen order.  Allocation failure (the
-1 return) is not modelled. -/
def sd_set_add_sd (sd_set : List (List Nat)) (bytes : List Nat) :
    Int × List (List Nat) :=
  match sd_set.findIdx? (fun b => b = bytes) with
  | some i => ((i : Int), sd_set)
  | none => ((sd_set.length : Int), sd_set ++ [bytes])

/-- get_security_descriptor from ntfs-3g_capture.c.  The stack-then-heap
retry loop terminates after at most one retry because the library reports a
stable size; it is embedded as the first call with the 4096-byte stack
buffer followed by at most one exact-size retry.  A positive-length
descriptor is registered in the SD set and its ID stored on the inode; a
zero-length result leaves both untouched. -/
def get_security_descriptor (ni : NInode) (ino : WInode)
    (sd_set : List (List Nat)) : Except WimErr (WInode × List (List Nat)) :=
  let r1 := ntfs_get_ntfs_acl ni 4096
  if r1 < 0 then .error .ntfs3g
  else
    let r2 := if r1 > 4096 then ntfs_get_ntfs_acl ni r1.toNat else r1
    if r2 < 0 then .error .ntfs3g
    else if r2 > 0 then
      let p := sd_set_add_sd sd_set ni.sdBytes
      if p.1 < 0 then .error .nomem
      else .ok ({ ino with i_security_id := p.1 }, p.2)
    else .ok (ino, sd_set)

/-- inode_is_symlink: a reparse point whose tag is
IO_REPARSE_TAG_SYMLINK or IO_REPARSE_TAG_MOUNT_POINT (inode.h is not part
of the sources; tag constants per the Windows definitions). -/
def inode_is_symlink (i : WInode) : Bool :=
  (i.i_attributes &&& FILE_ATTRIBUTE_REPARSE_POINT ≠ 0) &&
    (i.i_reparse_tag == 0xA000000C || i.i_reparse_tag == 0xA0000003)

/-- insert_dos_name: keyed by NTFS inode number; a duplicate emits a
warning and is discarded. -/
def insert_dos_name (m : List (Nat × List Nat)) (ino_no : Nat)
    (name : List Nat) : List (Nat × List Nat) :=
  if (m.find? (fun p => p.1 = ino_no)).isSome then m else m ++ [(ino_no, name)]

/-- set_dentry_dos_name: a Win32-named child is paired with the DOS name
recorded for its inode; an unmatched child keeps an empty short name (with
a warning). -/
def set_dentry_dos_name (m : List (Nat × List Nat)) (c : WDentryC) : WDentryC :=
  if c.is_win32_name then
    match (m.find? (fun p => p.1 = c.ino)).map (fun p => p.2) with
    | some n => c.withShortName n
    | none => c
  else c

/-- Per-inode scan of one attribute type, acting on the shared inode object
in the table (the C mutates the inode in place; here the inode value is
pulled, scanned and written back). -/
def scan_phase (st : CState) (mref : Nat) (typ : AttrType)
    (attrs : List NAttr) : Except WimErr CState :=
  match tbl_find st.itable mref with
  | none => .error .other
  | some i =>
      match scan_ntfs_attrs_with_type i mref typ attrs st.unhashed with
      | .error e => .error e
      | .ok (i', u') =>
          .ok { st with itable := tbl_update st.itable mref (fun _ => i'),
                        unhashed := u' }

/-- Security-descriptor phase acting on the shared inode object. -/
def acl_phase (st : CState) (mref : Nat) (ni : NInode) : Except WimErr CState :=
  match tbl_find st.itable mref with
  | none => .error .other
  | some i =>
      match get_security_descriptor ni i st.sd_set with
      | .error e => .error e
      | .ok (i', sd') =>
          .ok { st with itable := tbl_update st.itable mref (fun _ => i'),
                        sd_set := sd' }

/-- ntfs_3g_build_dentry_tree_recursive from ntfs-3g_capture.c, with
ntfs_3g_recurse_directory and filldir inlined as the fold over the readdir
entries.  Differences forced by the embedding: recursion is bounded by
fuel (the walk of the C code terminates because the volume tree is finite);
the capture callbacks (do_capture_progress, report_capture_error) are
modelled as always continuing, so progress is an event log and per-entry
errors propagate; utf16le_to_tstr transcoding is the identity on the
abstract name bytes.  Returns the dentry (none when excluded or
unsupported) and the updated capture state. -/
def ntfs_3g_build_dentry_tree_recursive (vol : NVolume)
    (params : CaptureParams) :
    Nat → Nat → List Nat → Nat → CState →
    Except WimErr (Option WDentryC × CState)
  | 0, _, _, _, _ => .error .other
  | Nat.succ fuel, mref, path, name_type, st =>
    let ret := params.tryExclude path
    if ret < 0 then
      .ok (none, { st with progress := st.progress ++ [.excluded path] })
    else if 0 < ret then .error .other
    else
      match nvol_lookup vol mref with
      | none => .error .ntfs3g
      | some ni =>
        let attributes := ni.attributes
        if attributes &&& FILE_ATTRIBUTE_ENCRYPTED ≠ 0 then
          if params.add_flags &&& WIMLIB_ADD_FLAG_NO_UNSUPPORTED_EXCLUDE ≠ 0 then
            .error .unsupportedFile
          else
            .ok (none, { st with progress := st.progress ++ [.unsupported path] })
        else
          let alloc := inode_table_new_dentry st.itable (path_basename path) mref
          let root0 := alloc.1
          let inode := alloc.2.2
          let root1 := if name_type &&& FILE_NAME_WIN32 ≠ 0
                       then root0.withWin32 true else root0
          let st1 : CState := { st with itable := alloc.2.1 }
          if inode.i_nlink > 1 then
            .ok (some root1,
                 { st1 with progress := st1.progress ++ [.ok path inode.i_ino] })
          else
            let st2 : CState :=
              { st1 with itable := tbl_update st1.itable mref (fun i =>
                  { i with i_creation_time := ni.creation_time,
                           i_last_write_time := ni.last_write_time,
                           i_last_access_time := ni.last_access_time,
                           i_attributes := attributes }) }
            match (if attributes &&& FILE_ATTRIBUTE_REPARSE_POINT ≠ 0 then
                     scan_phase st2 mref .reparse ni.reparseAttrs
                   else .ok st2) with
            | .error e => .error e
            | .ok st3 =>
              match scan_phase st3 mref .data ni.dataAttrs with
              | .error e => .error e
              | .ok st4 =>
                let st5 : CState :=
                  if params.add_flags &&& WIMLIB_ADD_FLAG_RPFIX ≠ 0 ∧
                     (tbl_find st4.itable mref).any inode_is_symlink then
                    { st4 with itable := tbl_update st4.itable mref (fun i =>
                        { i with i_rp_flags := i.i_rp_flags &&& 0xFFFFFFFE }) }
                  else st4
                match (if params.add_flags &&& WIMLIB_ADD_FLAG_NO_ACLS = 0 then
                         acl_phase st5 mref ni
                       else .ok st5) with
                | .error e => .error e
                | .ok st6 =>
                  let dirStep : Except WimErr (List WDentryC × CState) :=
                    if attributes &&& FILE_ATTRIBUTE_DIRECTORY ≠ 0 then
                      match ni.children.foldlM (fun acc e =>
                        let cs := acc.1
                        let dm := acc.2.1
                        let stc := acc.2.2
                        let afterDos :=
                          if e.nameType &&& FILE_NAME_DOS ≠ 0 then
                            insert_dos_name dm e.mref e.name
                          else dm
                        if e.nameType &&& FILE_NAME_DOS ≠ 0 ∧
                           e.nameType = FILE_NAME_DOS then
                          Except.ok (cs, afterDos, stc)
                        else if e.name = [46] ∨ e.name = [46, 46] then
                          Except.ok (cs, afterDos, stc)
                        else
                          let childPath := path ++
                            (if path.length ≠ 1 then [47] else []) ++ e.name
                          match ntfs_3g_build_dentry_tree_recursive vol params
                                  fuel e.mref childPath e.nameType stc with
                          | .error err => Except.error err
                          | .ok (some c, st') =>
                              Except.ok (cs ++ [c], afterDos, st')
                          | .ok (none, st') => Except.ok (cs, afterDos, st'))
                        (([], [], st6) :
                          List WDentryC × List (Nat × List Nat) × CState) with
                      | .error e => .error e
                      | .ok (cs, dm, st7) =>
                          .ok (cs.map (set_dentry_dos_name dm), st7)
                    else .ok ([], st6)
                  match dirStep with
                  | .error e => .error e
                  | .ok (children, st8) =>
                    let root2 := root1.withChildren children
                    .ok (some root2,
                         { st8 with progress :=
                             st8.progress ++ [.ok path inode.i_ino] })

/-! ## Metadata resource reader (metadata_resource.c, C7 of the spec) -/

/-- Minimum on-disk dentry size (WIM_DENTRY_DISK_SIZE; the spec states 102
bytes before names). -/
def WIM_DENTRY_DISK_SIZE : Nat := 102

/-- The u32 no-security-descriptor sentinel (-1 on disk). -/
def SEC_ID_NONE : Nat := 0xFFFFFFFF

/-- A decoded on-disk dentry (struct wim_dentry, the decoded fields). -/
structure RawDentry where
  length : Nat
  attributes : Nat
  security_id : Nat
  subdir_offset : Nat
  creation_time : Nat
  last_access_time : Nat
  last_write_time : Nat
  unnamed_hash : List Nat
  link_group : Nat
  num_alt : Nat
  short_name_nbytes : Nat
  file_name_nbytes : Nat
  file_name : List Nat
  short_name : List Nat
deriving DecidableEq, Repr

/-- The end-of-directory sentinel dentry (only the zero length field is
meaningful to the caller). -/
def endDentry : RawDentry :=
  { length := 0, attributes := 0, security_id := 0, subdir_offset := 0,
    creation_time := 0, last_access_time := 0, last_write_time := 0,
    unnamed_hash := [], link_group := 0, num_alt := 0,
    short_name_nbytes := 0, file_name_nbytes := 0, file_name := [],
    short_name := [] }

def dentry_is_directory (d : RawDentry) : Bool :=
  d.attributes &&& FILE_ATTRIBUTE_DIRECTORY ≠ 0

def dentry_has_long_name (d : RawDentry) : Bool :=
  d.file_name_nbytes ≠ 0

def dentry_has_short_name (d : RawDentry) : Bool :=
  d.short_name_nbytes ≠ 0

def clear_dentry_names (d : RawDentry) : RawDentry :=
  { d with file_name := [], short_name := [],
           file_name_nbytes := 0, short_name_nbytes := 0 }

/-- Modelled from the spec: read_dentry of dentry.c (not part of the
sources), following the §6.2 dentry layout.  A zero length field is the
end-of-directory sentinel.  The entry must lie strictly within the buffer
and be at least WIM_DENTRY_DISK_SIZE bytes with its names (each
null-terminated when present) fitting inside its length.  The spec field
list after the hash is condensed so that the fixed header is the stated 102
bytes, with the name-length fields in its last bytes; alternate-stream
entries are not decoded. -/
def read_dentry (buf : List Nat) (off : Nat) : Except WimErr RawDentry :=
  if off + 8 > buf.length then .error .invalidMetadataResource
  else
    let len := leNat buf off 8
    if len = 0 then .ok endDentry
    else if off + len > buf.length then .error .invalidMetadataResource
    else if len < WIM_DENTRY_DISK_SIZE then .error .invalidMetadataResource
    else
      let snb := leNat buf (off + 98) 2
      let fnb := leNat buf (off + 100) 2
      let needed := WIM_DENTRY_DISK_SIZE + (if fnb ≠ 0 then fnb + 2 else 0) +
                    (if snb ≠ 0 then snb + 2 else 0)
      if needed > len then .error .invalidMetadataResource
      else
        .ok { length := len,
              attributes := leNat buf (off + 8) 4,
              security_id := leNat buf (off + 12) 4,
              subdir_offset := leNat buf (off + 16) 8,
              creation_time := leNat buf (off + 40) 8,
              last_access_time := leNat buf (off + 48) 8,
              last_write_time := leNat buf (off + 56) 8,
              unnamed_hash := (buf.drop (off + 64)).take 20,
              link_group := leNat buf (off + 88) 8,
              num_alt := leNat buf (off + 96) 2,
              short_name_nbytes := snb,
              file_name_nbytes := fnb,
              file_name := (buf.drop (off + 102)).take fnb,
              short_name :=
                (buf.drop (off + 102 + (if fnb ≠ 0 then fnb + 2 else 0))).take snb }

/-- The parsed security data block (struct wim_security_data; the sizes
array is kept as the lengths of the descriptors). -/
structure SecData where
  total_length : Nat
  num_entries : Nat
  descriptors : List (List Nat)
deriving DecidableEq, Repr

/-- Slice consecutive descriptors of the given sizes out of the buffer. -/
def sec_slice (buf : List Nat) : Nat → List Nat → List (List Nat)
  | _, [] => []
  | off, s :: rest => (buf.drop off).take s :: sec_slice buf (off + s) rest

/-- Modelled from the spec: read_wim_security_data of security.c (not part
of the sources), following the §6.2 security block layout.  A zero
total_length is read as the trivial 8-byte block; total_length is padded to
8 and must bound the header, the sizes array and the descriptor bytes
inside the buffer. -/
def read_wim_security_data (buf : List Nat) : Except WimErr SecData :=
  let total0 := leNat buf 0 4
  let num := leNat buf 4 4
  if total0 = 0 then .ok { total_length := 8, num_entries := 0, descriptors := [] }
  else
    let total := align8 total0
    if total > buf.length then .error .invalidMetadataResource
    else if 8 + 8 * num > total then .error .invalidMetadataResource
    else
      let sizes := (List.range num).map (fun i => leNat buf (8 + 8 * i) 8)
      if 8 + 8 * num + sizes.sum > total then .error .invalidMetadataResource
      else .ok { total_length := total, num_entries := num,
                 descriptors := sec_slice buf (8 + 8 * num) sizes }

/-- A decoded dentry tree. -/
inductive PTree where
  | node (dentry : RawDentry) (children : List PTree)

def PTree.dentry : PTree → RawDentry
  | .node d _ => d

def PTree.children : PTree → List PTree
  | .node _ cs => cs

/-- Modelled from the spec: the recursive tree read of read_dentry_tree
(dentry.c, not part of the sources).  A sibling list starts at an absolute
offset and is terminated by a zero length field; each entry recurses into
its subdir_offset (0 meaning no children).  Fuel bounds the traversal,
embedding the cycle-detection requirement that each traversal visits a
bounded part of the buffer. -/
def read_dentry_siblings (buf : List Nat) :
    Nat → Nat → Except WimErr (List PTree)
  | 0, _ => .error .invalidMetadataResource
  | Nat.succ fuel, off =>
    match read_dentry buf off with
    | .error e => .error e
    | .ok d =>
      if d.length = 0 then .ok []
      else
        match (if d.subdir_offset = 0 then .ok []
               else read_dentry_siblings buf fuel d.subdir_offset) with
        | .error e => .error e
        | .ok children =>
          match read_dentry_siblings buf fuel (off + align8 d.length) with
          | .error e => .error e
          | .ok rest => .ok (PTree.node d children :: rest)

mutual

def PTree.dentries : PTree → List RawDentry
  | .node d cs => d :: PTree.dentriesList cs

def PTree.dentriesList : List PTree → List RawDentry
  | [] => []
  | t :: ts => t.dentries ++ PTree.dentriesList ts

end

/-- A reconstructed inode of the decoded image, as far as the verification
steps consult it. -/
structure RInode where
  security_id : Nat
  nlink : Nat
  link_group : Nat
deriving DecidableEq, Repr

/-- Stream-list consistency inside one hard link group: the members must
agree on the fields that describe the shared file contents. -/
def group_consistent (g : List RawDentry) : Bool :=
  match g with
  | [] => true
  | d :: rest => rest.all (fun e => e.attributes == d.attributes &&
                                    e.unnamed_hash == d.unnamed_hash)

/-- Modelled from the spec: dentry_tree_fix_inodes of inode_fixup.c (not
part of the sources).  Dentries sharing one nonzero hard-link group ID
collapse to one inode whose link count is the group size; a zero group ID
keeps the dentry on an inode of its own.  Inconsistent stream lists inside
a group are invalid. -/
def dentry_tree_fix_inodes (t : PTree) : Except WimErr (List RInode) :=
  let ds := t.dentries
  let zeros := ds.filter (fun d => d.link_group = 0)
  let gids := ((ds.filter (fun d => d.link_group ≠ 0)).map
                 (fun d => d.link_group)).dedup
  if gids.all (fun g => group_consistent (ds.filter (fun d => d.link_group = g)))
  then
    .ok (zeros.map (fun d =>
           { security_id := d.security_id, nlink := 1, link_group := 0 }) ++
         gids.map (fun g =>
           let grp := ds.filter (fun d => d.link_group = g)
           { security_id := (grp.head?.map RawDentry.security_id).getD SEC_ID_NONE,
             nlink := grp.length, link_group := g }))
  else .error .invalidMetadataResource

/-- verify_inode restricted to the security check of the spec: every
referenced security ID must be a valid index of the security table. -/
def verify_inodes (inodes : List RInode) (sd : SecData) : Bool :=
  inodes.all (fun i => i.security_id == SEC_ID_NONE ||
                       i.security_id < sd.num_entries)

/-- The image metadata read_metadata_resource fills in: root dentry tree
(none for an empty image), security data, inode list and the
unhashed-streams list (always initialized empty). -/
structure ReadResult where
  root : Option PTree
  security_data : SecData
  inode_list : List RInode
  unhashed_streams : List Nat

/-- read_metadata_resource from metadata_resource.c.  `sha1` abstracts the
external sha1_buffer; `dont_check` is the dont_check_metadata_hash flag and
`exp_hash` the lookup-table hash; `buf` is the decompressed resource, whose
length is the resource size.  Control flow follows the C: length floor,
optional hash check, security data, root dentry (zero length: empty image),
root name clearing, root directory check, tree read via the root
subdir_offset, inode reconstruction and verification. -/
def read_metadata_resource (sha1 : List Nat → List Nat) (dont_check : Bool)
    (exp_hash : List Nat) (buf : List Nat) : Except WimErr ReadResult :=
  if buf.length < 8 + WIM_DENTRY_DISK_SIZE then .error .invalidMetadataResource
  else if ¬dont_check ∧ sha1 buf ≠ exp_hash then .error .invalidMetadataResource
  else
    match read_wim_security_data buf with
    | .error e => .error e
    | .ok sd =>
      match read_dentry buf sd.total_length with
      | .error e => .error e
      | .ok root0 =>
        if root0.length = 0 then
          .ok { root := none, security_data := sd, inode_list := [],
                unhashed_streams := [] }
        else
          let root1 := if dentry_has_long_name root0 ∨ dentry_has_short_name root0
                       then clear_dentry_names root0 else root0
          if ¬dentry_is_directory root1 then .error .invalidMetadataResource
          else
            match (if root1.subdir_offset = 0 then .ok []
                   else read_dentry_siblings buf buf.length
                          root1.subdir_offset) with
            | .error e => .error e
            | .ok children =>
              let tree := PTree.node root1 children
              match dentry_tree_fix_inodes tree with
              | .error e => .error e
              | .ok inodes =>
                if verify_inodes inodes sd then
                  .ok { root := some tree, security_data := sd,
                        inode_list := inodes, unhashed_streams := [] }
                else .error .invalidMetadataResource

/-! ## Metadata resource writer (metadata_resource.c, C8 of the spec) -/

/-- A dentry of the in-memory image as the writer consumes it: the
attribute flags (the directory bit drives the offset walk), the long and
short name bytes (UTF-16LE), the serialized lengths of the alternate-stream
entries, and the children. -/
inductive WDentryW where
  | mk (attributes : Nat) (file_name : List Nat) (short_name : List Nat)
       (alt_lengths : List Nat) (children : List WDentryW)

def WDentryW.attributes : WDentryW → Nat
  | .mk a _ _ _ _ => a

def WDentryW.file_name : WDentryW → List Nat
  | .mk _ f _ _ _ => f

def WDentryW.short_name : WDentryW → List Nat
  | .mk _ _ s _ _ => s

def WDentryW.alt_lengths : WDentryW → List Nat
  | .mk _ _ _ l _ => l

def WDentryW.children : WDentryW → List WDentryW
  | .mk _ _ _ _ c => c

def WDentryW.isDir (d : WDentryW) : Bool :=
  d.attributes &&& FILE_ATTRIBUTE_DIRECTORY ≠ 0

/-- The name bytes a serialized dentry carries: each present name is
followed by a 2-byte null terminator (§6.2). -/
def dentry_names_length (d : WDentryW) : Nat :=
  (if d.file_name.length ≠ 0 then d.file_name.length + 2 else 0) +
  (if d.short_name.length ≠ 0 then d.short_name.length + 2 else 0)

/-- Modelled from the spec: dentry_out_total_length of dentry.c (not part
of the sources): the fixed header plus names, padded to 8, plus the
8-aligned alternate-stream entries. -/
def dentry_out_total_length (d : WDentryW) : Nat :=
  align8 (WIM_DENTRY_DISK_SIZE + dentry_names_length d) +
    (d.alt_lengths.map align8).sum

/-- Modelled from the spec: the byte emission for one dentry (write_dentry
of dentry.c, not part of the sources).  The length field holds the
unaligned header-plus-names length; fields not tracked by the writer model
are emitted as zero placeholders, and alternate-stream entries are emitted
as their 8-aligned byte extents. -/
def write_dentry (d : WDentryW) : List Nat :=
  let body := WIM_DENTRY_DISK_SIZE + dentry_names_length d
  leBytes body 8 ++ leBytes d.attributes 4 ++
    List.replicate (WIM_DENTRY_DISK_SIZE - 12) 0 ++
    d.file_name ++ (if d.file_name.length ≠ 0 then [0, 0] else []) ++
    d.short_name ++ (if d.short_name.length ≠ 0 then [0, 0] else []) ++
    List.replicate (align8 body - body) 0 ++
    (d.alt_lengths.map (fun l => List.replicate (align8 l) 0)).flatten

mutual

/-- Modelled from the spec: calculate_subdir_offsets (dentry.c, not part of
the sources), per §4.8 step 4: a pre-order walk over the directories,
assigning each its subdir_offset and advancing the cursor by the serialized
length of its children plus one 8-byte end-of-directory marker.  Only the
final cursor is of interest here. -/
def calculate_subdir_offsets : WDentryW → Nat → Nat
  | .mk a _f _s _l cs, cur =>
    if a &&& FILE_ATTRIBUTE_DIRECTORY ≠ 0 then
      calc_subdir_offsets_forest cs
        (cur + (cs.map dentry_out_total_length).sum + 8)
    else cur

def calc_subdir_offsets_forest : List WDentryW → Nat → Nat
  | [], cur => cur
  | d :: ds, cur => calc_subdir_offsets_forest ds (calculate_subdir_offsets d cur)

end

mutual

/-- The child blocks a directory contributes after its own serialization:
its children in order, the 8-byte end-of-directory marker, then recursively
the blocks of the children (pre-order). -/
def write_child_blocks : WDentryW → List Nat
  | .mk a _f _s _l cs =>
    if a &&& FILE_ATTRIBUTE_DIRECTORY ≠ 0 then
      (cs.map write_dentry).flatten ++ List.replicate 8 0 ++
        write_child_blocks_forest cs
    else []

def write_child_blocks_forest : List WDentryW → List Nat
  | [] => []
  | d :: ds => write_child_blocks d ++ write_child_blocks_forest ds

end

/-- Modelled from the spec: write_dentry_tree (dentry.c, not part of the
sources): the root dentry, the end-of-directory marker after it, then the
pre-order child blocks. -/
def write_dentry_tree (root : WDentryW) : List Nat :=
  write_dentry root ++ List.replicate 8 0 ++ write_child_blocks root

/-- The security data the writer consumes; the sizes array equals the
descriptor lengths. -/
structure SecDataW where
  descriptors : List (List Nat)

/-- recalculate_security_data_length from metadata_resource.c:
total_length = 2 u32 header fields + one u64 size per entry + descriptor
bytes, rounded up to 8. -/
def recalculate_security_data_length (sd : SecDataW) : Nat :=
  align8 (8 * sd.descriptors.length + 8 +
          (sd.descriptors.map List.length).sum)

/-- Modelled from the spec: write_wim_security_data (security.c, not part
of the sources), per the §6.2 layout: total_length, num_entries, the sizes
array, the concatenated descriptors and the padding up to total_length. -/
def write_wim_security_data (sd : SecDataW) : List Nat :=
  let raw := 8 + 8 * sd.descriptors.length + (sd.descriptors.map List.length).sum
  let total := recalculate_security_data_length sd
  leBytes total 4 ++ leBytes sd.descriptors.length 4 ++
    (sd.descriptors.map (fun dsc => leBytes dsc.length 8)).flatten ++
    sd.descriptors.flatten ++ List.replicate (total - raw) 0

/-- new_filler_directory: the empty dummy root synthesized for an image
without one. -/
def new_filler_directory : WDentryW :=
  .mk FILE_ATTRIBUTE_DIRECTORY [] [] [] []

/-- prepare_metadata_resource from metadata_resource.c: recalculate the
security length, seed the cursor with the aligned security length plus the
root dentry length plus the 8-byte end-of-directory entry after the root,
run the offset-assignment walk, and serialize security data followed by the
dentry tree.  Returns the allocated length (the final cursor) and the
emitted buffer; the writer asserts they exactly agree. -/
def prepare_metadata_resource (sd : SecDataW) (root_opt : Option WDentryW) :
    Nat × List Nat :=
  let root := match root_opt with
              | some r => r
              | none => new_filler_directory
  let total := recalculate_security_data_length sd
  let subdir_offset := align8 total + dentry_out_total_length root + 8
  let len := calculate_subdir_offsets root subdir_offset
  (len, write_wim_security_data sd ++ write_dentry_tree root)

/-! ## Concrete test vectors -/

/-- The smallest empty-image metadata resource the reader accepts: the
trivial 8-byte security block followed by 102 zero bytes, whose first 8
bytes at the root dentry position read as the end-of-directory entry. -/
def emptyImageBuf110 : List Nat :=
  [8, 0, 0, 0, 0, 0, 0, 0] ++ List.replicate 102 0

/-- The 16-byte buffer of the boundary scenario of the spec: the trivial
security block followed by only the 8-byte end-of-directory entry. -/
def emptyImageBuf16 : List Nat :=
  [8, 0, 0, 0, 0, 0, 0, 0, 0, 0, 0, 0, 0, 0, 0, 0]

/-- A metadata resource whose root dentry is a directory carrying the
4-byte long name X followed by a null code unit. -/
def namedRootBuf : List Nat :=
  [8, 0, 0, 0, 0, 0, 0, 0] ++
  [108, 0, 0, 0, 0, 0, 0, 0] ++ [16, 0, 0, 0] ++ [255, 255, 255, 255] ++
  List.replicate 82 0 ++ [0, 0] ++ [4, 0] ++ [88, 0, 0, 0] ++ [0, 0]

/-- The decoded root dentry of namedRootBuf before its name is dropped. -/
def namedRootDentry : RawDentry :=
  { length := 108, attributes := 16, security_id := 4294967295,
    subdir_offset := 0, creation_time := 0, last_access_time := 0,
    last_write_time := 0, unnamed_hash := List.replicate 20 0,
    link_group := 0, num_alt := 0, short_name_nbytes := 0,
    file_name_nbytes := 4, file_name := [88, 0, 0, 0], short_name := [] }

/-- A metadata resource like namedRootBuf whose root entry is not a
directory (attribute flags 0x80). -/
def nondirRootBuf : List Nat :=
  [8, 0, 0, 0, 0, 0, 0, 0] ++
  [102, 0, 0, 0, 0, 0, 0, 0] ++ [128, 0, 0, 0] ++ [255, 255, 255, 255] ++
  List.replicate 86 0

/-- The decoded root entry of nondirRootBuf. -/
def nondirRootDentry : RawDentry :=
  { length := 102, attributes := 128, security_id := 4294967295,
    subdir_offset := 0, creation_time := 0, last_access_time := 0,
    last_write_time := 0, unnamed_hash := List.replicate 20 0,
    link_group := 0, num_alt := 0, short_name_nbytes := 0,
    file_name_nbytes := 0, file_name := [], short_name := [] }

/-- A small volume with a hard-link pair: directory inode 5 holds two
POSIX entries under different names, both resolving to file inode 7, which
carries one non-empty unnamed data stream. -/
def hlFile : NInode :=
  { attributes := 0x80, creation_time := 21, last_write_time := 22,
    last_access_time := 23, reparseAttrs := [],
    dataAttrs := [{ name := [], dataSize := 3, content := [1, 2, 3],
                    firstLcn := some 100 }],
    sdBytes := [], sdFail := false, children := [] }

def hlDir : NInode :=
  { attributes := 0x10, creation_time := 11, last_write_time := 12,
    last_access_time := 13, reparseAttrs := [], dataAttrs := [],
    sdBytes := [], sdFail := false,
    children := [{ name := [97], nameType := 0, mref := 7 },
                 { name := [98], nameType := 0, mref := 7 }] }

def hlVolume : NVolume := { inodes := [(5, hlDir), (7, hlFile)] }

def hlParams : CaptureParams := { add_flags := 0, tryExclude := fun _ => 0 }

def hlRun : Except WimErr (Option WDentryC × CState) :=
  ntfs_3g_build_dentry_tree_recursive hlVolume hlParams 3 5 [47] 0
    { itable := [], sd_set := [], unhashed := [], progress := [] }

/-- Observable outcome of the hard-link capture: link count and stream
count of the shared inode, the unhashed-blob count, and the inode numbers
referenced by the two children of the root. -/
def hlOutcome : Option (Option Nat × Option Nat × Nat × List Nat) :=
  match hlRun with
  | .ok (some root, st) =>
      some ((tbl_find st.itable 7).map WInode.i_nlink,
            (tbl_find st.itable 7).map (fun (i : WInode) => i.i_streams.length),
            st.unhashed.length, root.childInos)
  | _ => none

/-- A capture state whose inode table already holds inode 7. -/
def hlSeenState : CState :=
  { itable := [(7, freshWInode 7)], sd_set := [], unhashed := [],
    progress := [] }

/-! # Theorems -/

theorem align8_ge (n : Nat) : n ≤ align8 n := by
  unfold align8; omega

theorem align8_idem (n : Nat) : align8 (align8 n) = align8 n := by
  unfold align8; omega

theorem leBytes_length (n k : Nat) : (leBytes n k).length = k := by
  induction k generalizing n with
  | zero => rfl
  | succ k ih => simp [leBytes, ih]

/-- Claim C8: the blob-descriptor comparison order(a, b) on NTFS locations
of one capture is a total preorder keyed by sort_key: it is
sign-antisymmetric, ties are exactly equal sort keys, it is transitive, and
any two descriptors are comparable. -/
theorem cmp_ntfs_locations_total_order (a b c : NtfsLocation) :
    cmp_ntfs_locations a b = -cmp_ntfs_locations b a ∧
    (cmp_ntfs_locations a b = 0 ↔ a.sort_key = b.sort_key) ∧
    (cmp_ntfs_locations a b ≤ 0 → cmp_ntfs_locations b c ≤ 0 →
      cmp_ntfs_locations a c ≤ 0) ∧
    (cmp_ntfs_locations a b ≤ 0 ∨ cmp_ntfs_locations b a ≤ 0) := by
  unfold cmp_ntfs_locations cmp_u64
  refine ⟨?_, ?_, ?_, ?_⟩ <;> split_ifs <;>
    first
    | omega
    | (simp only [false_iff]; omega)

/-- Witness for C8 at concrete locations. -/
theorem cmp_ntfs_locations_total_order_witness :
    cmp_ntfs_locations ⟨1, [], 5⟩ ⟨3, [], 9⟩ ≤ 0 :=
  (cmp_ntfs_locations_total_order ⟨1, [], 5⟩ ⟨2, [], 7⟩ ⟨3, [], 9⟩).2.2.1
    (by decide) (by decide)

/-- Claim C9: any metadata resource shorter than 8 + WIM_DENTRY_DISK_SIZE
bytes (110, so in particular 20) is rejected with InvalidMetadataResource
before anything is parsed. -/
theorem read_metadata_resource_length_floor (sha1 : List Nat → List Nat)
    (dont_check : Bool) (exp_hash : List Nat) (buf : List Nat)
    (hlen : buf.length < 8 + WIM_DENTRY_DISK_SIZE) :
    read_metadata_resource sha1 dont_check exp_hash buf =
      .error .invalidMetadataResource := by
  unfold read_metadata_resource
  simp [hlen]

/-- Witness for C9: a 20-byte buffer is rejected. -/
theorem read_metadata_resource_length_floor_witness :
    read_metadata_resource (fun _ => []) true [] (List.replicate 20 0) =
      .error .invalidMetadataResource :=
  read_metadata_resource_length_floor (fun _ => []) true []
    (List.replicate 20 0) (by decide)

/-- Claim C6: a non-empty REPARSE_POINT attribute shorter than 8 bytes
makes the scanner fail with InvalidReparseData; otherwise the blob
descriptor created for it has size equal to the raw attribute length minus
8, so the source length is blob.size + 8. -/
theorem scan_ntfs_attr_reparse_spec (ino : WInode) (mft_no : Nat) (a : NAttr)
    (u : List (Nat × Blob)) :
    (a.dataSize ≠ 0 → a.dataSize < REPARSE_DATA_OFFSET →
       scan_ntfs_attr ino mft_no .reparse a u = .error .invalidReparseData) ∧
    (∀ i' u', a.dataSize ≠ 0 →
       scan_ntfs_attr ino mft_no .reparse a u = .ok (i', u') →
       ∃ b : Blob, u' = u ++ [(i'.i_ino, b)] ∧
         b.size + REPARSE_DATA_OFFSET = a.dataSize ∧
         b.attr_type = .reparse) := by
  constructor
  · intro h0 hlt
    unfold scan_ntfs_attr
    simp [h0, hlt]
  · intro i' u' h0 heq
    unfold scan_ntfs_attr at heq
    simp [h0] at heq
    by_cases hlt : a.dataSize < REPARSE_DATA_OFFSET
    · simp [hlt] at heq
    · simp [hlt] at heq
      cases htag : read_reparse_tag a with
      | error e => rw [htag] at heq; simp at heq
      | ok tag =>
          rw [htag] at heq
          simp [inode_add_stream] at heq
          obtain ⟨hi, hu⟩ := heq
          refine ⟨{ size := a.dataSize - REPARSE_DATA_OFFSET,
                    mft_no := mft_no, attr_type := .reparse,
                    attr_name := a.name,
                    sort_key := set_attr_sort_key a }, ?_, ?_, rfl⟩
          · rw [← hu, ← hi]
          · show a.dataSize - REPARSE_DATA_OFFSET + REPARSE_DATA_OFFSET =
              a.dataSize
            unfold REPARSE_DATA_OFFSET at hlt ⊢
            omega

/-- Witness for C6: a 4-byte reparse attribute is rejected. -/
theorem scan_ntfs_attr_reparse_spec_witness :
    scan_ntfs_attr (freshWInode 3) 3 .reparse
      { name := [], dataSize := 4, content := [0, 0, 0, 0], firstLcn := none }
      [] = .error .invalidReparseData :=
  (scan_ntfs_attr_reparse_spec (freshWInode 3) 3
      { name := [], dataSize := 4, content := [0, 0, 0, 0], firstLcn := none }
      []).1 (by decide) (by decide)

/-- Claim C10: with ACLs enabled, a zero-length security descriptor leaves
the SD set untouched and the inode security ID at its sentinel (the fetch
succeeds with both unchanged); a successful fetch changes the stored ID
only when the volume descriptor is non-empty. -/
theorem get_security_descriptor_empty_sd (ni : NInode) (ino : WInode)
    (sd_set : List (List Nat)) :
    (ni.sdBytes = [] → ni.sdFail = false →
       get_security_descriptor ni ino sd_set = .ok (ino, sd_set)) ∧
    (∀ i' s', get_security_descriptor ni ino sd_set = .ok (i', s') →
       i'.i_security_id ≠ ino.i_security_id → ni.sdBytes ≠ []) := by
  constructor
  · intro hb hf
    unfold get_security_descriptor ntfs_get_ntfs_acl
    simp [hf, hb]
  · intro i' s' heq hid hbytes
    cases hf : ni.sdFail with
    | true =>
        unfold get_security_descriptor ntfs_get_ntfs_acl at heq
        simp [hf] at heq
    | false =>
        unfold get_security_descriptor ntfs_get_ntfs_acl at heq
        simp [hf, hbytes] at heq
        exact hid (by rw [← heq.1])

/-- Witness for C10: fetching the empty descriptor of the hard-link test
file leaves a fresh inode and an empty SD set unchanged. -/
theorem get_security_descriptor_empty_sd_witness :
    get_security_descriptor hlFile (freshWInode 7) [] =
      .ok (freshWInode 7, []) :=
  (get_security_descriptor_empty_sd hlFile (freshWInode 7) []).1 rfl rfl

theorem write_dentry_length (d : WDentryW) :
    (write_dentry d).length = dentry_out_total_length d := by
  have h := align8_ge (WIM_DENTRY_DISK_SIZE + dentry_names_length d)
  unfold write_dentry dentry_out_total_length dentry_names_length
    WIM_DENTRY_DISK_SIZE at *
  simp only [List.length_append, List.length_replicate, leBytes_length,
    List.length_flatten, List.map_map, Function.comp]
  simp only [Function.comp_def, List.length_replicate]
  split_ifs <;> simp_all <;> omega

mutual

theorem calculate_subdir_offsets_spec (d : WDentryW) (cur : Nat) :
    calculate_subdir_offsets d cur = cur + (write_child_blocks d).length := by
  cases d with
  | mk a f s l cs =>
    unfold calculate_subdir_offsets write_child_blocks
    by_cases hd : a &&& FILE_ATTRIBUTE_DIRECTORY ≠ 0
    · rw [if_pos hd, if_pos hd, calc_subdir_offsets_forest_spec]
      have hmap : cs.map (fun x => (write_dentry x).length) =
          cs.map dentry_out_total_length :=
        List.map_congr_left (fun x _ => write_dentry_length x)
      simp only [List.length_append, List.length_replicate,
        List.length_flatten, List.map_map, Function.comp_def, hmap]
      omega
    · rw [if_neg hd, if_neg hd]
      simp

theorem calc_subdir_offsets_forest_spec (ds : List WDentryW) (cur : Nat) :
    calc_subdir_offsets_forest ds cur =
      cur + (write_child_blocks_forest ds).length := by
  cases ds with
  | nil => simp [calc_subdir_offsets_forest, write_child_blocks_forest]
  | cons d ds =>
    unfold calc_subdir_offsets_forest write_child_blocks_forest
    rw [calc_subdir_offsets_forest_spec ds, calculate_subdir_offsets_spec d]
    simp only [List.length_append]
    omega

end

theorem write_wim_security_data_length (sd : SecDataW) :
    (write_wim_security_data sd).length =
      recalculate_security_data_length sd := by
  have h := align8_ge (8 * sd.descriptors.length + 8 +
    (sd.descriptors.map List.length).sum)
  unfold write_wim_security_data recalculate_security_data_length at *
  simp only [List.length_append, List.length_replicate, leBytes_length,
    List.length_flatten, List.map_map, Function.comp_def]
  have hconst : (sd.descriptors.map (fun _ => 8)).sum =
      8 * sd.descriptors.length := by
    rw [List.map_const', List.sum_replicate, smul_eq_mul, Nat.mul_comm]
  simp only [hconst]
  omega

/-- Claim C2: for every image the writer accepts, the final cursor of the
pre-order subdir-offset assignment (seeded with the aligned security
length, the root dentry length and the 8-byte end-of-directory entry after
the root) equals the number of bytes emitted by serializing the security
data followed by the dentry tree, so the buffer of exactly that size is
exactly filled and the writer assertion holds. -/
theorem prepare_metadata_resource_exact_fill (sd : SecDataW)
    (root_opt : Option WDentryW) :
    (prepare_metadata_resource sd root_opt).2.length =
      (prepare_metadata_resource sd root_opt).1 := by
  have halign : align8 (recalculate_security_data_length sd) =
      recalculate_security_data_length sd := by
    unfold recalculate_security_data_length
    exact align8_idem _
  cases root_opt with
  | none =>
      show (write_wim_security_data sd ++
              write_dentry_tree new_filler_directory).length =
        calculate_subdir_offsets new_filler_directory
          (align8 (recalculate_security_data_length sd) +
            dentry_out_total_length new_filler_directory + 8)
      rw [calculate_subdir_offsets_spec]
      simp only [write_dentry_tree, List.length_append,
        List.length_replicate, write_wim_security_data_length,
        write_dentry_length, halign]
      omega
  | some root =>
      show (write_wim_security_data sd ++ write_dentry_tree root).length =
        calculate_subdir_offsets root
          (align8 (recalculate_security_data_length sd) +
            dentry_out_total_length root + 8)
      rw [calculate_subdir_offsets_spec]
      simp only [write_dentry_tree, List.length_append,
        List.length_replicate, write_wim_security_data_length,
        write_dentry_length, halign]
      omega

theorem read_attr_chunks_complete (data : List Nat) (sink : List Nat → Int)
    (hsink : ∀ ch, sink ch = 0) :
    ∀ rem pos, pos + rem ≤ data.length →
      (read_attr_chunks data sink pos rem).1 = 0 ∧
      (read_attr_chunks data sink pos rem).2.flatten =
        (data.drop pos).take rem := by
  intro rem
  induction rem using Nat.strong_induction_on with
  | _ rem ih =>
    intro pos hle
    cases rem with
    | zero => simp [read_attr_chunks]
    | succ r =>
      have htr : 1 ≤ min (Nat.succ r) BUFFER_SIZE := by
        unfold BUFFER_SIZE; omega
      have h1 : ((data.drop pos).take (min (Nat.succ r) BUFFER_SIZE)).length
          = min (Nat.succ r) BUFFER_SIZE := by
        simp only [List.length_take, List.length_drop]
        omega
      simp only [read_attr_chunks, h1, ne_eq, not_true_eq_false, if_false,
        hsink, not_false_eq_true, if_true, if_neg]
      obtain ⟨ihc, ihf⟩ := ih (Nat.succ r - min (Nat.succ r) BUFFER_SIZE)
        (by omega) (pos + min (Nat.succ r) BUFFER_SIZE) (by omega)
      refine ⟨ihc, ?_⟩
      simp only [List.flatten_cons, ihf]
      have hsplit : (data.drop pos).take (Nat.succ r) =
          (data.drop pos).take (min (Nat.succ r) BUFFER_SIZE) ++
          ((data.drop pos).drop (min (Nat.succ r) BUFFER_SIZE)).take
            (Nat.succ r - min (Nat.succ r) BUFFER_SIZE) := by
        rw [← List.take_add]
        congr 1
        omega
      rw [hsplit, List.drop_drop, Nat.add_comm]

theorem read_attr_chunks_short (data : List Nat) (sink : List Nat → Int)
    (hsink : ∀ ch, sink ch = 0) :
    ∀ rem pos, 0 < rem → data.length < pos + rem →
      (read_attr_chunks data sink pos rem).1 = ERR_NTFS_3G_CODE := by
  intro rem
  induction rem using Nat.strong_induction_on with
  | _ rem ih =>
    intro pos hpos hlen
    cases rem with
    | zero => omega
    | succ r =>
      have htr : 1 ≤ min (Nat.succ r) BUFFER_SIZE := by
        unfold BUFFER_SIZE; omega
      by_cases hfits : pos + min (Nat.succ r) BUFFER_SIZE ≤ data.length
      · have h1 : ((data.drop pos).take (min (Nat.succ r) BUFFER_SIZE)).length
            = min (Nat.succ r) BUFFER_SIZE := by
          simp only [List.length_take, List.length_drop]
          omega
        simp only [read_attr_chunks, h1, ne_eq, not_true_eq_false, if_false,
          hsink, not_false_eq_true, if_true, if_neg]
        exact ih (Nat.succ r - min (Nat.succ r) BUFFER_SIZE) (by omega)
          (pos + min (Nat.succ r) BUFFER_SIZE) (by omega) (by omega)
      · have h1 : ((data.drop pos).take (min (Nat.succ r) BUFFER_SIZE)).length
            ≠ min (Nat.succ r) BUFFER_SIZE := by
          simp only [List.length_take, List.length_drop]
          omega
        simp only [read_attr_chunks, ne_eq, h1, not_false_eq_true, if_true]

theorem read_attr_chunks_abort (data : List Nat) (sink : List Nat → Int)
    (pos rem : Nat) (hpos : 0 < rem)
    (hfits : pos + min rem BUFFER_SIZE ≤ data.length)
    (habort : sink ((data.drop pos).take (min rem BUFFER_SIZE)) ≠ 0) :
    read_attr_chunks data sink pos rem =
      (sink ((data.drop pos).take (min rem BUFFER_SIZE)),
       [(data.drop pos).take (min rem BUFFER_SIZE)]) := by
  cases rem with
  | zero => omega
  | succ r =>
    have h1 : ((data.drop pos).take (min (Nat.succ r) BUFFER_SIZE)).length
        = min (Nat.succ r) BUFFER_SIZE := by
      simp only [List.length_take, List.length_drop]
      omega
    simp only [read_attr_chunks, h1, ne_eq, not_true_eq_false, if_false,
      habort, not_false_eq_true, if_true, if_neg]

/-- Claim C7: read_ntfs_attribute_prefix delivers the first n bytes of the
attribute to the sink in BUFFER_SIZE chunks, starting at offset 8 for a
REPARSE_POINT attribute and 0 otherwise; a short chunk read yields the
NTFS error code, and a nonzero sink return value short-circuits the loop
and is returned. -/
theorem read_ntfs_attribute_prefix_c_spec (isRep : Bool) (data : List Nat)
    (n : Nat) (sink : List Nat → Int) :
    ((∀ ch, sink ch = 0) →
       (if isRep then REPARSE_DATA_OFFSET else 0) + n ≤ data.length →
       (read_ntfs_attribute_prefix_c isRep data n sink).1 = 0 ∧
       (read_ntfs_attribute_prefix_c isRep data n sink).2.flatten =
         (data.drop (if isRep then REPARSE_DATA_OFFSET else 0)).take n) ∧
    ((∀ ch, sink ch = 0) → 0 < n →
       data.length < (if isRep then REPARSE_DATA_OFFSET else 0) + n →
       (read_ntfs_attribute_prefix_c isRep data n sink).1 =
         ERR_NTFS_3G_CODE) ∧
    (0 < n →
       (if isRep then REPARSE_DATA_OFFSET else 0) + min n BUFFER_SIZE ≤
         data.length →
       sink ((data.drop (if isRep then REPARSE_DATA_OFFSET else 0)).take
         (min n BUFFER_SIZE)) ≠ 0 →
       read_ntfs_attribute_prefix_c isRep data n sink =
         (sink ((data.drop (if isRep then REPARSE_DATA_OFFSET else 0)).take
            (min n BUFFER_SIZE)),
          [(data.drop (if isRep then REPARSE_DATA_OFFSET else 0)).take
            (min n BUFFER_SIZE)])) := by
  refine ⟨?_, ?_, ?_⟩
  · intro hsink hle
    exact read_attr_chunks_complete data sink hsink n
      (if isRep then REPARSE_DATA_OFFSET else 0) hle
  · intro hsink hpos hlen
    exact read_attr_chunks_short data sink hsink n
      (if isRep then REPARSE_DATA_OFFSET else 0) hpos hlen
  · intro hpos hfits habort
    exact read_attr_chunks_abort data sink
      (if isRep then REPARSE_DATA_OFFSET else 0) n hpos hfits habort

/-- Witness for C7: reading 12 bytes of a 20-byte reparse attribute with an
always-continuing sink succeeds and delivers bytes 8 through 19. -/
theorem read_ntfs_attribute_prefix_c_spec_witness :
    (read_ntfs_attribute_prefix_c true (List.range 20) 12 (fun _ => 0)).1
        = 0 ∧
    (read_ntfs_attribute_prefix_c true (List.range 20) 12
        (fun _ => 0)).2.flatten =
      ((List.range 20).drop 8).take 12 := by
  have h := (read_ntfs_attribute_prefix_c_spec true (List.range 20) 12
    (fun _ => 0)).1 (fun _ => rfl) (by decide)
  simpa using h

/-- Claim C3: the SHA-1 of the metadata buffer is checked against the
expected hash exactly when dont_check_metadata_hash is false: any buffer
whose hash differs fails with InvalidMetadataResource when the flag is
false, while with the flag true the result does not depend on the hash
function or expected hash at all, and the 110-byte empty image in
particular succeeds under a mismatching hash with the flag set and fails
with it clear. -/
theorem read_metadata_resource_hash_check (sha1 : List Nat → List Nat)
    (exp_hash : List Nat) (buf : List Nat) :
    (sha1 buf ≠ exp_hash →
       read_metadata_resource sha1 false exp_hash buf =
         .error .invalidMetadataResource) ∧
    (∀ (sha1' : List Nat → List Nat) (exp' : List Nat),
       read_metadata_resource sha1 true exp_hash buf =
         read_metadata_resource sha1' true exp' buf) ∧
    (read_metadata_resource (fun _ => []) true [1] emptyImageBuf110 =
       .ok { root := none, security_data := ⟨8, 0, []⟩, inode_list := [],
             unhashed_streams := [] }) ∧
    (read_metadata_resource (fun _ => []) false [1] emptyImageBuf110 =
       .error .invalidMetadataResource) ∧
    ((fun (_ : List Nat) => ([] : List Nat)) emptyImageBuf110 ≠ [1]) := by
  refine ⟨?_, ?_, rfl, rfl, by decide⟩
  · intro hne
    unfold read_metadata_resource
    by_cases hlen : buf.length < 8 + WIM_DENTRY_DISK_SIZE
    · rw [if_pos hlen]
    · rw [if_neg hlen, if_pos ⟨by simp, hne⟩]
  · intro sha1' exp'
    unfold read_metadata_resource
    by_cases hlen : buf.length < 8 + WIM_DENTRY_DISK_SIZE
    · rw [if_pos hlen, if_pos hlen]
    · rw [if_neg hlen, if_neg hlen, if_neg (by simp), if_neg (by simp)]

/-- Witness for C3 at a concrete mismatching buffer. -/
theorem read_metadata_resource_hash_check_witness :
    read_metadata_resource (fun _ => []) false [2] (List.replicate 120 9) =
      .error .invalidMetadataResource :=
  (read_metadata_resource_hash_check (fun _ => []) [2]
    (List.replicate 120 9)).1 (by decide)

/-- Counterexample for C4: the 16-byte buffer of the boundary scenario
(trivial security block followed by the 8-byte end-of-directory entry,
which the claim says must succeed with root = null) is rejected with
InvalidMetadataResource by the length floor, even with the hash check
disabled. -/
theorem read_metadata_resource_minimal16_rejected :
    read_metadata_resource (fun _ => []) true [] emptyImageBuf16 =
      .error .invalidMetadataResource ∧
    emptyImageBuf16.length = 16 ∧
    leNat emptyImageBuf16 8 8 = 0 :=
  ⟨rfl, rfl, rfl⟩

/-- Claim C4 (amended): for buffers that pass the length floor and the
hash check, an end-of-directory entry (zero length field) at the root
dentry position makes the read succeed with root = null, the parsed
security data and an empty unhashed-streams list. -/
theorem read_metadata_resource_empty_image (sha1 : List Nat → List Nat)
    (dont_check : Bool) (exp_hash : List Nat) (buf : List Nat) (sd : SecData)
    (hlen : ¬ buf.length < 8 + WIM_DENTRY_DISK_SIZE)
    (hhash : dont_check = true ∨ sha1 buf = exp_hash)
    (hsec : read_wim_security_data buf = .ok sd)
    (hfit : sd.total_length + 8 ≤ buf.length)
    (hzero : leNat buf sd.total_length 8 = 0) :
    read_metadata_resource sha1 dont_check exp_hash buf =
      .ok { root := none, security_data := sd, inode_list := [],
            unhashed_streams := [] } := by
  unfold read_metadata_resource
  rw [if_neg hlen, if_neg ?hc]
  case hc =>
    rcases hhash with h | h
    · simp [h]
    · simp [h]
  have hrd : read_dentry buf sd.total_length = .ok endDentry := by
    unfold read_dentry
    rw [if_neg (by omega : ¬ sd.total_length + 8 > buf.length)]
    simp only [hzero, if_pos]
  simp only [hsec, hrd]
  rfl

/-- Witness for C4 (amended) at the 110-byte empty image. -/
theorem read_metadata_resource_empty_image_witness :
    read_metadata_resource (fun _ => []) true [] emptyImageBuf110 =
      .ok { root := none, security_data := ⟨8, 0, []⟩, inode_list := [],
            unhashed_streams := [] } :=
  read_metadata_resource_empty_image (fun _ => []) true [] emptyImageBuf110
    ⟨8, 0, []⟩ (by decide) (Or.inl rfl) rfl (by decide) (by decide)

theorem read_metadata_root_is_clean (sha1 : List Nat → List Nat) (dc : Bool)
    (exp buf : List Nat) (r : ReadResult) (d : RawDentry) (cs : List PTree)
    (h : read_metadata_resource sha1 dc exp buf = .ok r)
    (hroot : r.root = some (PTree.node d cs)) :
    dentry_is_directory d = true ∧ dentry_has_long_name d = false ∧
    dentry_has_short_name d = false := by
  unfold read_metadata_resource at h
  split at h
  · exact absurd h (by simp)
  split at h
  · exact absurd h (by simp)
  split at h
  · exact absurd h (by simp)
  split at h
  · exact absurd h (by simp)
  split at h
  · injection h with h'
    rw [← h'] at hroot
    exact absurd hroot (by simp)
  rename_i hfloor hhash xsd sd heqsd xrd root0 heqrd hlen0
  by_cases hname : dentry_has_long_name root0 = true ∨
      dentry_has_short_name root0 = true
  · simp only [hname, if_true] at h
    split at h
    · exact absurd h (by simp)
    rename_i hdir
    split at h
    · exact absurd h (by simp)
    rename_i children heqch
    split at h
    · exact absurd h (by simp)
    rename_i inodes heqfix
    split at h
    · injection h with h'
      rw [← h'] at hroot
      simp only [Option.some.injEq, PTree.node.injEq] at hroot
      obtain ⟨hd, hcs⟩ := hroot
      subst hd
      refine ⟨by simpa using hdir, ?_, ?_⟩
      · simp [clear_dentry_names, dentry_has_long_name]
      · simp [clear_dentry_names, dentry_has_short_name]
    · exact absurd h (by simp)
  · simp only [hname, if_false] at h
    split at h
    · exact absurd h (by simp)
    rename_i hdir
    split at h
    · exact absurd h (by simp)
    rename_i children heqch
    split at h
    · exact absurd h (by simp)
    rename_i inodes heqfix
    split at h
    · injection h with h'
      rw [← h'] at hroot
      simp only [Option.some.injEq, PTree.node.injEq] at hroot
      obtain ⟨hd, hcs⟩ := hroot
      subst hd
      push_neg at hname
      obtain ⟨h1, h2⟩ := hname
      exact ⟨by simpa using hdir, by simpa using h1, by simpa using h2⟩
    · exact absurd h (by simp)

theorem read_metadata_nondir_root_fails (sha1 : List Nat → List Nat)
    (exp buf : List Nat) (sd : SecData) (d : RawDentry)
    (hfloor : ¬ buf.length < 8 + WIM_DENTRY_DISK_SIZE)
    (hsec : read_wim_security_data buf = .ok sd)
    (hrd : read_dentry buf sd.total_length = .ok d)
    (hlen0 : d.length ≠ 0)
    (hdir : dentry_is_directory d = false) :
    read_metadata_resource sha1 true exp buf =
      .error .invalidMetadataResource := by
  unfold read_metadata_resource
  rw [if_neg hfloor, if_neg (by simp)]
  simp only [hsec, hrd]
  rw [if_neg hlen0]
  have hdir1 : dentry_is_directory
      (if dentry_has_long_name d = true ∨ dentry_has_short_name d = true
       then clear_dentry_names d else d) = false := by
    split
    · simpa [dentry_is_directory, clear_dentry_names] using hdir
    · exact hdir
  rw [if_pos (by simp [hdir1])]

/-- Claim C5: every successful metadata read returning a root yields a
directory with empty long and short names; a decoded root that is not a
directory fails the read with InvalidMetadataResource; and the concrete
resource whose root dentry carries the 4-byte name X is accepted with the
names dropped. -/
theorem read_metadata_resource_root_sanity :
    (∀ (sha1 : List Nat → List Nat) (dc : Bool) (exp buf : List Nat)
       (r : ReadResult) (d : RawDentry) (cs : List PTree),
       read_metadata_resource sha1 dc exp buf = .ok r →
       r.root = some (PTree.node d cs) →
       dentry_is_directory d = true ∧ dentry_has_long_name d = false ∧
       dentry_has_short_name d = false) ∧
    (∀ (sha1 : List Nat → List Nat) (exp buf : List Nat) (sd : SecData)
       (d : RawDentry),
       ¬ buf.length < 8 + WIM_DENTRY_DISK_SIZE →
       read_wim_security_data buf = .ok sd →
       read_dentry buf sd.total_length = .ok d →
       d.length ≠ 0 →
       dentry_is_directory d = false →
       read_metadata_resource sha1 true exp buf =
         .error .invalidMetadataResource) ∧
    (read_dentry namedRootBuf 8 = .ok namedRootDentry) ∧
    (namedRootDentry.file_name_nbytes = 4) ∧
    (read_metadata_resource (fun _ => []) true [] namedRootBuf =
       .ok { root := some (PTree.node (clear_dentry_names namedRootDentry) []),
             security_data := ⟨8, 0, []⟩,
             inode_list := [{ security_id := SEC_ID_NONE, nlink := 1,
                              link_group := 0 }],
             unhashed_streams := [] }) :=
  ⟨read_metadata_root_is_clean, read_metadata_nondir_root_fails,
   rfl, rfl, rfl⟩

/-- Witness for C5: the concrete non-directory root resource is rejected. -/
theorem read_metadata_resource_root_sanity_witness :
    read_metadata_resource (fun _ => []) true [] nondirRootBuf =
      .error .invalidMetadataResource :=
  read_metadata_resource_root_sanity.2.1 (fun _ => []) [] nondirRootBuf
    ⟨8, 0, []⟩ nondirRootDentry (by decide) rfl rfl (by decide) (by decide)

theorem build_tree_shared_inode_skips (vol : NVolume) (params : CaptureParams)
    (fuel mref name_type : Nat) (path : List Nat) (st : CState)
    (ni : NInode) (i0 : WInode)
    (hx : params.tryExclude path = 0)
    (hni : nvol_lookup vol mref = some ni)
    (henc : ni.attributes &&& FILE_ATTRIBUTE_ENCRYPTED = 0)
    (hi : tbl_find st.itable mref = some i0)
    (hn : 0 < i0.i_nlink) :
    ntfs_3g_build_dentry_tree_recursive vol params (fuel + 1) mref path
        name_type st =
      .ok (some (WDentryC.mk (path_basename path) []
                   (decide (name_type &&& FILE_NAME_WIN32 ≠ 0)) mref []),
           { itable := tbl_update st.itable mref
               (fun j => { j with i_nlink := j.i_nlink + 1 }),
             sd_set := st.sd_set, unhashed := st.unhashed,
             progress := st.progress ++ [.ok path i0.i_ino] }) := by
  unfold ntfs_3g_build_dentry_tree_recursive
  rw [hx]
  simp only [hni, henc]
  norm_num
  unfold inode_table_new_dentry
  simp only [hi]
  rw [if_pos (show i0.i_nlink + 1 > 1 by omega)]
  by_cases hw : name_type &&& FILE_NAME_WIN32 ≠ 0
  · simp [hw, WDentryC.withWin32]
  · have h0 : name_type &&& FILE_NAME_WIN32 = 0 := by push_neg at hw; exact hw
    simp [WDentryC.withWin32, h0]

/-- Claim C1: a dentry whose volume inode number was already seen is bound
to the shared inode with its link count incremented, and the per-inode work
(steps 6 through 10 and the directory recursion) is skipped: the scanner
goes straight to progress reporting, leaving streams, the SD set and the
unhashed list untouched.  On the concrete hard-link volume, the two
dentries end up on one inode with link count 2, a single stream and a
single unhashed blob from one enumeration. -/
theorem ntfs_3g_build_tree_hard_link_spec :
    (∀ (vol : NVolume) (params : CaptureParams)
       (fuel mref name_type : Nat) (path : List Nat) (st : CState)
       (ni : NInode) (i0 : WInode),
       params.tryExclude path = 0 →
       nvol_lookup vol mref = some ni →
       ni.attributes &&& FILE_ATTRIBUTE_ENCRYPTED = 0 →
       tbl_find st.itable mref = some i0 →
       0 < i0.i_nlink →
       ntfs_3g_build_dentry_tree_recursive vol params (fuel + 1) mref path
           name_type st =
         .ok (some (WDentryC.mk (path_basename path) []
                      (decide (name_type &&& FILE_NAME_WIN32 ≠ 0)) mref []),
              { itable := tbl_update st.itable mref
                  (fun j => { j with i_nlink := j.i_nlink + 1 }),
                sd_set := st.sd_set, unhashed := st.unhashed,
                progress := st.progress ++ [.ok path i0.i_ino] })) ∧
    hlOutcome = some (some 2, some 1, 1, [7, 7]) :=
  ⟨build_tree_shared_inode_skips, by decide⟩

/-- Witness for C1: the skip path at a concrete state that has already
seen inode 7. -/
theorem ntfs_3g_build_tree_hard_link_spec_witness :
    ntfs_3g_build_dentry_tree_recursive hlVolume hlParams (0 + 1) 7 [47, 99]
        0 hlSeenState =
      .ok (some (WDentryC.mk (path_basename [47, 99]) []
                   (decide ((0 : Nat) &&& FILE_NAME_WIN32 ≠ 0)) 7 []),
           { itable := tbl_update hlSeenState.itable 7
               (fun j => { j with i_nlink := j.i_nlink + 1 }),
             sd_set := hlSeenState.sd_set, unhashed := hlSeenState.unhashed,
             progress := hlSeenState.progress ++
               [.ok [47, 99] (freshWInode 7).i_ino] }) :=
  ntfs_3g_build_tree_hard_link_spec.1 hlVolume hlParams 0 7 0 [47, 99]
    hlSeenState hlFile (freshWInode 7) rfl rfl (by decide) rfl (by decide)

end Wimlib
